import Mathlib

/-
A shallow embedding of the generic asynchronous repository layer of the
incident-management service (src/database/base_repository.py), together with
theorems about its retry wrapper, its query building and execution, and its
unique-identifier generation loop.

Conventions of the embedding:
  * a record type is an arbitrary Lean type ρ; a SQLAlchemy filter
    (BinaryExpression) is a Boolean predicate ρ → Bool;
  * a fallible store call is a value of Except ε β; one call of a façade
    operation performs up to count_attemps attempts, each attempt opening a
    fresh Session, modelled by giving the underlying call the attempt index
    (attempt i runs in the i-th freshly opened session);
  * Python's implicit None return (a for-loop that runs zero iterations) is
    the outer Option layer of the result.
-/

namespace Repo

variable {ρ ι : Type} {ε β : Type}

/-- Class attribute count_attemps of AsyncBaseIdSQLAlchemyCRUD
(base_repository.py line 309): the number of attempts of every façade
operation. -/
def count_attemps : Nat := 10

/-- Mirrors the retry wrapper shared verbatim by the eight façade operations
create, get, get_all, get_all_with_filters, update, update_with_filters,
delete, delete_with_filters (base_repository.py lines 374-381, 390-397,
407-414, 431-438, 452-459, 472-479, 491-498, 507-514):

  for attempt in range(n):
      try:
          async with AsyncSessionLocal() as session:
              return await raw_call(session)
      except Exception as ex_:
          await handle_async(..., exception=ex_)
          if attempt == n - 1:
              raise

The first component of the result is the returned value (some b), the
re-raised exception, or none of the two when the loop runs zero iterations;
the second is the number of attempts made (sessions opened); the third is
the list of exceptions reported to the failure sink, in order. -/
def tryLoop (call : Nat → Except ε β) : Nat → Nat → Except ε (Option β) × Nat × List ε
  | 0, _ => (Except.ok none, 0, [])
  | rem + 1, attempt =>
    match call attempt with
    | Except.ok b => (Except.ok (some b), 1, [])
    | Except.error e =>
      if rem = 0 then
        (Except.error e, 1, [e])
      else
        let r := tryLoop call rem (attempt + 1)
        (r.1, r.2.1 + 1, e :: r.2.2)

/-- A façade operation with n configured attempts: the retry loop started at
attempt index 0. Each of the eight public façade operations of
AsyncBaseIdSQLAlchemyCRUD is this wrapper applied to the corresponding raw
operation of AsyncSQLAlchemyRepository. -/
def facadeOp (n : Nat) (call : Nat → Except ε β) : Except ε (Option β) × Nat × List ε :=
  tryLoop call n 0

theorem tryLoop_all_fail (call : Nat → Except ε β) (err : Nat → ε) :
    ∀ rem attempt, 0 < rem →
      (∀ i, i < rem → call (attempt + i) = Except.error (err (attempt + i))) →
      (tryLoop call rem attempt).1 = Except.error (err (attempt + rem - 1)) ∧
        (tryLoop call rem attempt).2.1 = rem := by
  intro rem
  induction rem with
  | zero => intro attempt h; omega
  | succ r ih =>
    intro attempt _ hfail
    have h0 : call attempt = Except.error (err attempt) := by
      simpa using hfail 0 (Nat.succ_pos r)
    rcases Nat.eq_zero_or_pos r with hr | hr
    · subst hr
      simp [tryLoop, h0]
    · have hrec := ih (attempt + 1) hr (by
        intro i hi
        have := hfail (i + 1) (by omega)
        simpa [Nat.add_assoc, Nat.add_comm, Nat.add_left_comm] using this)
      have hrne : r ≠ 0 := Nat.pos_iff_ne_zero.mp hr
      constructor
      · simp only [tryLoop, h0, if_neg hrne]
        have : attempt + 1 + r - 1 = attempt + (r + 1) - 1 := by omega
        rw [← this]
        exact hrec.1
      · simp only [tryLoop, h0, if_neg hrne]
        rw [hrec.2]

theorem tryLoop_succeeds (call : Nat → Except ε β) (err : Nat → ε) :
    ∀ k rem attempt b, k < rem →
      (∀ i, i < k → call (attempt + i) = Except.error (err (attempt + i))) →
      call (attempt + k) = Except.ok b →
      (tryLoop call rem attempt).1 = Except.ok (some b) ∧
        (tryLoop call rem attempt).2.1 = k + 1 := by
  intro k
  induction k with
  | zero =>
    intro rem attempt b hk _ hok
    obtain ⟨r, rfl⟩ := Nat.exists_eq_succ_of_ne_zero (Nat.pos_iff_ne_zero.mp hk)
    simp only [Nat.add_zero] at hok
    simp [tryLoop, hok]
  | succ k ih =>
    intro rem attempt b hk hfail hok
    obtain ⟨r, rfl⟩ := Nat.exists_eq_succ_of_ne_zero (by omega : rem ≠ 0)
    have h0 : call attempt = Except.error (err attempt) := by
      simpa using hfail 0 (Nat.succ_pos k)
    have hrne : r ≠ 0 := by omega
    have hrec := ih r (attempt + 1) b (by omega)
      (by
        intro i hi
        have := hfail (i + 1) (by omega)
        simpa [Nat.add_assoc, Nat.add_comm, Nat.add_left_comm] using this)
      (by
        have : attempt + 1 + k = attempt + (k + 1) := by omega
        rw [this]
        exact hok)
    constructor
    · simp only [tryLoop, h0, if_neg hrne]
      exact hrec.1
    · simp only [tryLoop, h0, if_neg hrne]
      rw [hrec.2]

/-- C1: for every façade operation (create, get, get_all,
get_all_with_filters, update, update_with_filters, delete,
delete_with_filters, all wrapping their raw call in the identical retry
loop), if the underlying store call raises on every attempt then exactly n
attempts are made (n sessions opened, attempt indices 0..n-1) and the
exception of the final attempt is re-raised; if the call fails on attempts
0..k-1 and succeeds on attempt k < n, the successful result is returned
after exactly k+1 attempts and no exception propagates. -/
theorem facade_retry (n : Nat) (call : Nat → Except ε β) (err : Nat → ε)
    (hn : 0 < n) :
    ((∀ i, i < n → call i = Except.error (err i)) →
      (facadeOp n call).1 = Except.error (err (n - 1)) ∧ (facadeOp n call).2.1 = n) ∧
    (∀ k b, k < n → (∀ i, i < k → call i = Except.error (err i)) →
      call k = Except.ok b →
      (facadeOp n call).1 = Except.ok (some b) ∧ (facadeOp n call).2.1 = k + 1) := by
  constructor
  · intro hfail
    have := tryLoop_all_fail call err n 0 hn (by simpa using hfail)
    simpa [facadeOp] using this
  · intro k b hk hfail hok
    have := tryLoop_succeeds call err k n 0 b hk (by simpa using hfail) (by simpa using hok)
    simpa [facadeOp] using this

theorem facade_retry_witness :
    0 < count_attemps ∧
    (((∀ i, i < count_attemps →
        (fun j => (Except.error j : Except Nat Nat)) i = Except.error i) →
      (facadeOp count_attemps (fun j => (Except.error j : Except Nat Nat))).1
          = Except.error (count_attemps - 1) ∧
        (facadeOp count_attemps (fun j => (Except.error j : Except Nat Nat))).2.1
          = count_attemps) ∧
    (∀ k b, k < count_attemps →
      (∀ i, i < k → (fun j => (Except.error j : Except Nat Nat)) i = Except.error i) →
      (fun j => (Except.error j : Except Nat Nat)) k = Except.ok b →
      (facadeOp count_attemps (fun j => (Except.error j : Except Nat Nat))).1
          = Except.ok (some b) ∧
        (facadeOp count_attemps (fun j => (Except.error j : Except Nat Nat))).2.1
          = k + 1)) :=
  ⟨by decide,
   facade_retry count_attemps (fun j => (Except.error j : Except Nat Nat))
     (fun j => j) (by decide)⟩

/-- Column metadata of a bound model class: the names produced by
inspect(cls.model).columns (base_repository.py lines 181-182) and, for each
column name, the value of that column on a record (column values are
modelled as integers, which is what the incident model's sortable columns
hold). -/
structure ModelMeta (ρ : Type) where
  columnNames : List String
  col : String → ρ → Int

/-- The sort_by argument of raw_get_all_with_filters: a string naming a
field, an attribute-like object carrying a key (an InstrumentedAttribute),
or any other object (no key attribute). The whole argument is optional. -/
inductive SortArg where
  | str (s : String)
  | attr (key : String)
  | other
deriving DecidableEq

/-- Python truthiness of the sort_by argument as tested by the line
"if sort_by:" (base_repository.py line 192): None and the empty string are
falsy, attribute objects are truthy. -/
def sortArgTruthy : Option SortArg → Bool
  | none => false
  | some (SortArg.str s) => !(s == "")
  | some (SortArg.attr _) => true
  | some SortArg.other => true

/-- Python truthiness of the filters argument as tested by the line
"if filters:" (base_repository.py lines 188, 236, 263): None and the empty
list are falsy. -/
def filtersTruthy (filters : Option (List (ρ → Bool))) : Bool :=
  match filters with
  | none => false
  | some fs => !fs.isEmpty

/-- The WHERE conjuncts a query ends up with: the filter list when the
filters argument is truthy, nothing otherwise. -/
def buildWheres (filters : Option (List (ρ → Bool))) : List (ρ → Bool) :=
  if filtersTruthy filters then filters.getD [] else []

/-- A record matches a list of WHERE conjuncts when it satisfies and_ of
them; an empty conjunct list matches every record. -/
def matchesWheres (ws : List (ρ → Bool)) (r : ρ) : Bool :=
  ws.all (fun w => w r)

/-- Resolution of the sort column (base_repository.py lines 193-201): a
string is looked up among the column names; an attribute-like object is
used when its key is a column name; anything else yields no sort column. -/
def sortColumnOf (M : ModelMeta ρ) : SortArg → Option (ρ → Int)
  | SortArg.str s => if s ∈ M.columnNames then some (M.col s) else none
  | SortArg.attr k => if k ∈ M.columnNames then some (M.col k) else none
  | SortArg.other => none

/-- The SELECT statement raw_get_all_with_filters builds: WHERE conjuncts,
an optional (sort column, descending?) ORDER BY, and optional LIMIT and
OFFSET. -/
structure SelectQuery (ρ : Type) where
  wheres : List (ρ → Bool)
  orderBy : Option ((ρ → Int) × Bool)
  limit : Option Nat
  offset : Option Nat

/-- Query construction of raw_get_all_with_filters (base_repository.py
lines 180-213): apply the filters as a conjunction when truthy; resolve the
sort column and record the direction, descending exactly when
sort_order.lower() == "desc"; record limit and offset when they are not
None. -/
def buildSelect (M : ModelMeta ρ) (filters : Option (List (ρ → Bool)))
    (sortBy : Option SortArg) (sortOrder : String)
    (lim off : Option Nat) : SelectQuery ρ :=
  { wheres := buildWheres filters
    orderBy :=
      if sortArgTruthy sortBy then
        match sortColumnOf M (sortBy.getD SortArg.other) with
        | some c =>
          if sortOrder.toLower = "desc" then some (c, true) else some (c, false)
        | none => none
      else none
    limit := lim
    offset := off }

/-- The ordering an ORDER BY clause induces: asc(key) compares keys upward,
desc(key) downward. -/
def sortKeyLe (key : ρ → Int) (isDesc : Bool) (a b : ρ) : Bool :=
  if isDesc then decide (key b ≤ key a) else decide (key a ≤ key b)

/-- Insertion into a list sorted by le, keeping earlier elements first on
ties. -/
def orderByInsert (le : ρ → ρ → Bool) (a : ρ) : List ρ → List ρ
  | [] => [a]
  | b :: t => if le a b then a :: b :: t else b :: orderByInsert le a t

/-- The sort a database applies for an ORDER BY clause, as a stable
insertion sort by the clause's ordering. -/
def orderBySort (le : ρ → ρ → Bool) : List ρ → List ρ
  | [] => []
  | a :: t => orderByInsert le a (orderBySort le t)

/-- SQL execution semantics of a built SELECT statement against the
record set of the table: rows satisfying the WHERE conjunction, ordered by
the ORDER BY clause when present, with OFFSET skipping rows of the ordered
result and LIMIT then capping how many are returned. -/
def execSelect (recs : List ρ) (q : SelectQuery ρ) : List ρ :=
  let filtered := recs.filter (matchesWheres q.wheres)
  let sorted :=
    match q.orderBy with
    | none => filtered
    | some (key, isDesc) => orderBySort (sortKeyLe key isDesc) filtered
  let shifted :=
    match q.offset with
    | none => sorted
    | some o => sorted.drop o
  match q.limit with
  | none => shifted
  | some l => shifted.take l

/-- AsyncSQLAlchemyRepository.raw_get_all_with_filters (base_repository.py
lines 165-217): build the SELECT statement and execute it against the
table's records. -/
def raw_get_all_with_filters (M : ModelMeta ρ) (recs : List ρ)
    (filters : Option (List (ρ → Bool))) (sortBy : Option SortArg)
    (sortOrder : String) (lim off : Option Nat) : List ρ :=
  execSelect recs (buildSelect M filters sortBy sortOrder lim off)

/-- AsyncSQLAlchemyRepository.raw_get (base_repository.py lines 136-148):
select(model).filter(filter_) evaluated with session.scalar, which yields
the first matching row or None when no row matches. -/
def raw_get (recs : List ρ) (filt : ρ → Bool) : Option ρ :=
  recs.find? filt

/-- AsyncSQLAlchemyRepository.raw_update_with_filters (base_repository.py
lines 220-245): UPDATE with the filters as conjunction (no filtering when
the filters argument is falsy) and the values of data, modelled as a
field-update function; the result is the new table content together with
the statement's rowcount, the number of rows the WHERE clause matched. -/
def raw_update_with_filters (upd : ρ → ρ) (filters : Option (List (ρ → Bool)))
    (recs : List ρ) : List ρ × Nat :=
  let ws := buildWheres filters
  (recs.map (fun r => if matchesWheres ws r then upd r else r),
   (recs.filter (matchesWheres ws)).length)

/-- AsyncSQLAlchemyRepository.raw_delete_with_filters (base_repository.py
lines 248-269): DELETE with the filters as conjunction (no filtering when
the filters argument is falsy); the result is the new table content
together with the statement's rowcount. -/
def raw_delete_with_filters (filters : Option (List (ρ → Bool)))
    (recs : List ρ) : List ρ × Nat :=
  let ws := buildWheres filters
  (recs.filter (fun r => !matchesWheres ws r),
   (recs.filter (matchesWheres ws)).length)

/-- The instance-bound façade operation get (base_repository.py lines
383-397): the retry wrapper around raw_get with the filter
field_id == custom_id; each attempt opens a fresh session whose view of the
table (or store failure) is given by the sessions oracle. -/
def get (n : Nat) (sessions : Nat → Except ε (List ρ)) (filt : ρ → Bool) :
    Except ε (Option (Option ρ)) × Nat × List ε :=
  facadeOp n (fun attempt =>
    match sessions attempt with
    | Except.ok recs => Except.ok (raw_get recs filt)
    | Except.error e => Except.error e)

/-- Outcome of the uniqueness probe raw_get(filter_=(field_id == id_value))
inside one draw of generate_unique_field_id: a record with that identifying
value exists, none exists, or the store call itself raises. -/
inductive CheckRes (ε : Type) where
  | found
  | notFound
  | err (e : ε)
deriving DecidableEq

/-- An exception caught by the except clause of generate_unique_field_id
(base_repository.py lines 357-361): the conversion int(str_id)/float(str_id)
raised, or the session or its raw_get raised. -/
inductive GenExn (ε : Type) where
  | convErr
  | store (e : ε)
deriving DecidableEq

/-- How one attempt of generate_unique_field_id ends: the while-True body
returns a value, or an exception escapes to the except clause. -/
inductive InnerOut (ε ι : Type) where
  | ret (v : ι)
  | exn (e : GenExn ε)
deriving DecidableEq

/-- The while True body of generate_unique_field_id (base_repository.py
lines 341-356) run inside one attempt's session, starting at global draw
index j and unfolded for at most fuel draws:

  while True:
      str_id = "".join([random.choice(all_chars) for _ in range(length)])
      id_value = <coerce str_id per return_type>
      if not await instance.raw_get(..., filter_=(field_id == id_value)):
          return id_value

draws gives the j-th drawn candidate string, conv the coercion of the
return_type switch (str: always succeeds; int/float: none models the
raised ValueError), check the uniqueness probe on the j-th draw. The first
component is none while the loop is still running after fuel draws; the
second is the number of draws consumed. -/
def genInner (conv : String → Option ι) (draws : Nat → String)
    (check : Nat → ι → CheckRes ε) : Nat → Nat → Option (InnerOut ε ι) × Nat
  | 0, _ => (none, 0)
  | fuel + 1, j =>
    match conv (draws j) with
    | none => (some (InnerOut.exn GenExn.convErr), 1)
    | some v =>
      match check j v with
      | CheckRes.err e => (some (InnerOut.exn (GenExn.store e)), 1)
      | CheckRes.notFound => (some (InnerOut.ret v), 1)
      | CheckRes.found =>
        let r := genInner conv draws check fuel (j + 1)
        (r.1, r.2 + 1)

/-- How a whole call of generate_unique_field_id ends: the body returned a
value, an exception was re-raised on the final attempt, or the for loop ran
zero iterations and Python returned None. -/
inductive GenFinal (ε ι : Type) where
  | retNone
  | val (v : ι)
  | raised (e : GenExn ε)
deriving DecidableEq

/-- The attempt loop of generate_unique_field_id (base_repository.py lines
338-361): each attempt opens a fresh session and runs the while True body;
a caught exception is reported to the failure sink and, on the final
attempt, re-raised. The components are: the final outcome (none while the
current attempt's body is still running after its fuel), the total number
of candidate draws, the number of attempts begun (sessions opened), and the
exceptions reported to the sink in order. -/
def genLoop (conv : String → Option ι) (draws : Nat → String)
    (check : Nat → ι → CheckRes ε) (innerFuel : Nat) :
    Nat → Nat → Option (GenFinal ε ι) × Nat × Nat × List (GenExn ε)
  | 0, _ => (some GenFinal.retNone, 0, 0, [])
  | rem + 1, j =>
    match genInner conv draws check innerFuel j with
    | (none, c) => (none, c, 1, [])
    | (some (InnerOut.ret v), c) => (some (GenFinal.val v), c, 1, [])
    | (some (InnerOut.exn e), c) =>
      if rem = 0 then
        (some (GenFinal.raised e), c, 1, [e])
      else
        let r := genLoop conv draws check innerFuel rem (j + c)
        (r.1, c + r.2.1, 1 + r.2.2.1, e :: r.2.2.2)

/-- AsyncBaseIdSQLAlchemyCRUD.generate_unique_field_id (base_repository.py
lines 321-361) with n configured attempts, the draw stream, coercion and
uniqueness probe abstracted as above, and the while True loop unfolded for
at most innerFuel draws per attempt. -/
def generate_unique_field_id (conv : String → Option ι) (draws : Nat → String)
    (check : Nat → ι → CheckRes ε) (innerFuel n : Nat) :
    Option (GenFinal ε ι) × Nat × Nat × List (GenExn ε) :=
  genLoop conv draws check innerFuel n 0

/-- The uniqueness probe over a fixed table content: the raw_get lookup on
field_id == v, reporting found exactly when some record's identifying field
equals the candidate (no transient store failure). -/
def checkOfStore [DecidableEq ι] (recs : List ρ) (fieldId : ρ → ι) :
    Nat → ι → CheckRes ε :=
  fun _ v =>
    match raw_get recs (fun r => decide (fieldId r = v)) with
    | some _ => CheckRes.found
    | none => CheckRes.notFound

/-- Decimal digit test on a character, by its code point. -/
def isDigitChar (c : Char) : Bool :=
  decide (48 ≤ c.toNat) && decide (c.toNat ≤ 57)

/-- Coercion of the drawn string for return_type=int: Python's int() on a
string over the drawn alphabets succeeds exactly on nonempty digit strings,
yielding their decimal value, and raises ValueError (none) otherwise. -/
def pyIntConv (s : String) : Option Nat :=
  if s.data ≠ [] ∧ s.data.all isDigitChar then
    some (s.data.foldl (fun n c => 10 * n + (c.toNat - 48)) 0)
  else none

/-- Metadata of a table with a single integer column named id whose value
is the record itself, used to evaluate the theorems on concrete inputs. -/
def natMeta : ModelMeta Nat :=
  { columnNames := ["id"], col := fun _ r => (r : Int) }

/-- C6: for every filter under which no record matches, raw_get returns
None rather than raising, and the instance-bound façade get() returns that
absence as a success of its first attempt: one session is opened, nothing
is reported to the failure sink, and no retry happens. -/
theorem raw_get_absence (recs : List ρ) (filt : ρ → Bool) (n : Nat) (hn : 0 < n)
    (hnone : ∀ r ∈ recs, filt r = false) :
    raw_get recs filt = none ∧
    get (ε := ε) n (fun _ => Except.ok recs) filt = (Except.ok (some none), 1, []) := by
  have h1 : raw_get recs filt = none := by
    apply List.find?_eq_none.mpr
    intro x hx
    simp [hnone x hx]
  refine ⟨h1, ?_⟩
  obtain ⟨m, rfl⟩ := Nat.exists_eq_succ_of_ne_zero (Nat.pos_iff_ne_zero.mp hn)
  simp [get, facadeOp, tryLoop, h1]

theorem raw_get_absence_witness :
    0 < count_attemps ∧
    (∀ r ∈ ([1, 2, 3] : List Nat), (fun x => decide (x = 5)) r = false) ∧
    (raw_get [1, 2, 3] (fun x => decide (x = 5)) = none ∧
      get (ε := Unit) count_attemps (fun _ => Except.ok [1, 2, 3]) (fun x => decide (x = 5))
        = (Except.ok (some none), 1, [])) :=
  ⟨by decide, by decide,
   raw_get_absence [1, 2, 3] (fun x => decide (x = 5)) count_attemps (by decide) (by decide)⟩

/-- C7: raw_update_with_filters applies the field updates to exactly the
records matching the conjunction of the filters (an empty or absent filter
set updates every record of the type) and its rowcount equals the number of
matching records at execution time; raw_delete_with_filters removes exactly
the matching records and returns the same count (deleting everything when
the filter set is absent). -/
theorem update_delete_filters_count (upd : ρ → ρ) (filters : Option (List (ρ → Bool)))
    (recs : List ρ) :
    (raw_update_with_filters upd filters recs).2
        = recs.countP (matchesWheres (buildWheres filters)) ∧
    (raw_update_with_filters upd filters recs).1
        = recs.map (fun r => if matchesWheres (buildWheres filters) r then upd r else r) ∧
    (raw_update_with_filters upd none recs).1 = recs.map upd ∧
    (raw_delete_with_filters filters recs).2
        = recs.countP (matchesWheres (buildWheres filters)) ∧
    (raw_delete_with_filters filters recs).1
        = recs.filter (fun r => !matchesWheres (buildWheres filters) r) ∧
    (raw_delete_with_filters (ρ := ρ) none recs).2 = recs.length := by
  refine ⟨?_, rfl, ?_, ?_, rfl, ?_⟩
  · simp [raw_update_with_filters, List.countP_eq_length_filter]
  · simp [raw_update_with_filters, buildWheres, filtersTruthy, matchesWheres]
  · simp [raw_delete_with_filters, List.countP_eq_length_filter]
  · simp [raw_delete_with_filters, buildWheres, filtersTruthy, matchesWheres]

/-- C5: when sort_by names a field that is not a column of the model
(whether it is a string or an attribute-like object, which is exactly when
the sort-column resolution yields nothing), raw_get_all_with_filters skips
the ordering step and still returns every record matching the filters, with
no error. -/
theorem unknown_sort_field (M : ModelMeta ρ) (recs : List ρ)
    (filters : Option (List (ρ → Bool))) (sb : SortArg) (sortOrder : String)
    (h : sortColumnOf M sb = none) :
    raw_get_all_with_filters M recs filters (some sb) sortOrder none none
      = recs.filter (matchesWheres (buildWheres filters)) := by
  by_cases ht : sortArgTruthy (some sb) = true
  · simp [raw_get_all_with_filters, execSelect, buildSelect, ht, h]
  · simp [raw_get_all_with_filters, execSelect, buildSelect, ht]

theorem unknown_sort_field_witness :
    sortColumnOf natMeta (SortArg.str "status_x") = none ∧
    raw_get_all_with_filters natMeta [1, 2, 3] (some [fun r => decide (1 ≤ r)])
        (some (SortArg.str "status_x")) "asc" none none
      = [1, 2, 3].filter (matchesWheres (buildWheres (some [fun r => decide (1 ≤ r)]))) :=
  ⟨by simp [sortColumnOf, natMeta],
   unknown_sort_field natMeta [1, 2, 3] (some [fun r => decide (1 ≤ r)])
     (SortArg.str "status_x") "asc" (by simp [sortColumnOf, natMeta])⟩

theorem buildSelect_valid_str (M : ModelMeta ρ) (filters : Option (List (ρ → Bool)))
    (s sortOrder : String) (lim off : Option Nat)
    (hs : s ∈ M.columnNames) (hne : s ≠ "") :
    buildSelect M filters (some (SortArg.str s)) sortOrder lim off
      = { wheres := buildWheres filters
          orderBy := some (M.col s, sortOrder.toLower == "desc")
          limit := lim
          offset := off } := by
  by_cases hd : sortOrder.toLower = "desc"
  · simp [buildSelect, sortArgTruthy, sortColumnOf, hs, hne, hd]
  · simp [buildSelect, sortArgTruthy, sortColumnOf, hs, hne, hd]

/-- C10: with a valid sort field, the built query is descending exactly
when sort_order lower-cases to "desc", and any other sort_order (asc, the
empty string, anything unrecognized) yields ascending order of the matching
records; moreover passing filters as None and as the empty list builds the
same unfiltered query in raw_get_all_with_filters, raw_update_with_filters
and raw_delete_with_filters. -/
theorem sort_order_and_empty_filters (M : ModelMeta ρ) (recs : List ρ)
    (filters : Option (List (ρ → Bool))) (s sortOrder : String)
    (lim off : Option Nat) (sb : Option SortArg) (so : String)
    (lim2 off2 : Option Nat) (upd : ρ → ρ)
    (hs : s ∈ M.columnNames) (hne : s ≠ "") :
    ((buildSelect M filters (some (SortArg.str s)) sortOrder lim off).orderBy
        = some (M.col s, sortOrder.toLower == "desc")) ∧
    (sortOrder.toLower ≠ "desc" →
      raw_get_all_with_filters M recs filters (some (SortArg.str s)) sortOrder none none
        = orderBySort (sortKeyLe (M.col s) false)
            (recs.filter (matchesWheres (buildWheres filters)))) ∧
    (raw_get_all_with_filters M recs none sb so lim2 off2
        = raw_get_all_with_filters M recs (some []) sb so lim2 off2) ∧
    (raw_update_with_filters upd none recs = raw_update_with_filters upd (some []) recs) ∧
    (raw_delete_with_filters (ρ := ρ) none recs = raw_delete_with_filters (some []) recs) := by
  refine ⟨?_, ?_, rfl, rfl, rfl⟩
  · rw [buildSelect_valid_str M filters s sortOrder lim off hs hne]
  · intro hd
    rw [raw_get_all_with_filters, buildSelect_valid_str M filters s sortOrder none none hs hne]
    have hflag : (sortOrder.toLower == "desc") = false := by
      simpa using hd
    rw [hflag]
    rfl

theorem sort_order_and_empty_filters_witness :
    "id" ∈ natMeta.columnNames ∧ "id" ≠ "" ∧
    (((buildSelect natMeta none (some (SortArg.str "id")) "ASC" none none).orderBy
        = some (natMeta.col "id", "ASC".toLower == "desc")) ∧
    ("ASC".toLower ≠ "desc" →
      raw_get_all_with_filters natMeta [2, 1] none (some (SortArg.str "id")) "ASC" none none
        = orderBySort (sortKeyLe (natMeta.col "id") false)
            ([2, 1].filter (matchesWheres (buildWheres none)))) ∧
    (raw_get_all_with_filters natMeta [2, 1] none none "asc" none none
        = raw_get_all_with_filters natMeta [2, 1] (some []) none "asc" none none) ∧
    (raw_update_with_filters (fun r => r + 1) none [2, 1]
        = raw_update_with_filters (fun r => r + 1) (some []) [2, 1]) ∧
    (raw_delete_with_filters (ρ := Nat) none [2, 1]
        = raw_delete_with_filters (some []) [2, 1])) :=
  ⟨by decide, by decide,
   sort_order_and_empty_filters natMeta [2, 1] none "id" "ASC" none none none "asc"
     none none (fun r => r + 1) (by decide) (by decide)⟩

/-- The fully ordered sequence of matching records: the records satisfying
the filter conjunction, sorted by the resolved sort column in the direction
sort_order selects. -/
def sortedMatching (M : ModelMeta ρ) (recs : List ρ)
    (filters : Option (List (ρ → Bool))) (s sortOrder : String) : List ρ :=
  orderBySort (sortKeyLe (M.col s) (sortOrder.toLower == "desc"))
    (recs.filter (matchesWheres (buildWheres filters)))

/-- C4: with a valid sort field and a deterministic (duplicate-free) sort
key, raw_get_all_with_filters with limit L and offset O returns exactly the
records at positions [O, O+L) of the full sorted sequence of matching
records — filters first, then ordering, then limit and offset — and returns
the empty sequence when O is at least the number of matching records. -/
theorem get_all_filters_pagination (M : ModelMeta ρ) (recs : List ρ)
    (filters : Option (List (ρ → Bool))) (s sortOrder : String) (L O : Nat)
    (hs : s ∈ M.columnNames) (hne : s ≠ "")
    (hdet : (recs.filter (matchesWheres (buildWheres filters))).Pairwise
      (fun a b => M.col s a ≠ M.col s b)) :
    (raw_get_all_with_filters M recs filters (some (SortArg.str s)) sortOrder
        (some L) (some O)
      = ((sortedMatching M recs filters s sortOrder).drop O).take L) ∧
    ((raw_get_all_with_filters M recs filters (some (SortArg.str s)) sortOrder
        (some L) (some O)).length
      = min L ((sortedMatching M recs filters s sortOrder).length - O)) ∧
    (∀ i, i < L →
      (raw_get_all_with_filters M recs filters (some (SortArg.str s)) sortOrder
          (some L) (some O))[i]?
        = (sortedMatching M recs filters s sortOrder)[O + i]?) ∧
    ((sortedMatching M recs filters s sortOrder).length ≤ O →
      raw_get_all_with_filters M recs filters (some (SortArg.str s)) sortOrder
          (some L) (some O) = []) := by
  have hmain : raw_get_all_with_filters M recs filters (some (SortArg.str s)) sortOrder
      (some L) (some O)
      = ((sortedMatching M recs filters s sortOrder).drop O).take L := by
    rw [raw_get_all_with_filters, buildSelect_valid_str M filters s sortOrder
      (some L) (some O) hs hne]
    rfl
  refine ⟨hmain, ?_, ?_, ?_⟩
  · rw [hmain]
    simp [List.length_take, List.length_drop]
  · intro i hi
    rw [hmain, List.getElem?_take, if_pos hi, List.getElem?_drop]
  · intro hO
    rw [hmain, List.drop_eq_nil_of_le hO, List.take_nil]

theorem get_all_filters_pagination_witness :
    "id" ∈ natMeta.columnNames ∧ "id" ≠ "" ∧
    (([3, 1, 2].filter (matchesWheres (buildWheres none))).Pairwise
      (fun a b => natMeta.col "id" a ≠ natMeta.col "id" b)) ∧
    ((raw_get_all_with_filters natMeta [3, 1, 2] none (some (SortArg.str "id")) "asc"
        (some 1) (some 1)
      = ((sortedMatching natMeta [3, 1, 2] none "id" "asc").drop 1).take 1) ∧
    ((raw_get_all_with_filters natMeta [3, 1, 2] none (some (SortArg.str "id")) "asc"
        (some 1) (some 1)).length
      = min 1 ((sortedMatching natMeta [3, 1, 2] none "id" "asc").length - 1)) ∧
    (∀ i, i < 1 →
      (raw_get_all_with_filters natMeta [3, 1, 2] none (some (SortArg.str "id")) "asc"
          (some 1) (some 1))[i]?
        = (sortedMatching natMeta [3, 1, 2] none "id" "asc")[1 + i]?) ∧
    ((sortedMatching natMeta [3, 1, 2] none "id" "asc").length ≤ 1 →
      raw_get_all_with_filters natMeta [3, 1, 2] none (some (SortArg.str "id")) "asc"
          (some 1) (some 1) = [])) :=
  ⟨by decide, by decide, by decide,
   get_all_filters_pagination natMeta [3, 1, 2] none "id" "asc" 1 1
     (by decide) (by decide) (by decide)⟩

/-- C9: with a fixed record set whose identifying-field values are pairwise
distinct, the identifying-field value set of
raw_get_all_with_filters(filters=[f1, f2]) (no sort, limit or offset)
equals the intersection of the value sets obtained with [f1] alone and with
[f2] alone: the filter list is applied as a conjunction. -/
theorem filter_conjunction [DecidableEq ι] (M : ModelMeta ρ) (recs : List ρ)
    (f1 f2 : ρ → Bool) (fieldId : ρ → ι)
    (hinj : recs.Pairwise (fun a b => fieldId a ≠ fieldId b)) :
    ((raw_get_all_with_filters M recs (some [f1, f2]) none "asc" none none).map
        fieldId).toFinset
      = ((raw_get_all_with_filters M recs (some [f1]) none "asc" none none).map
          fieldId).toFinset
        ∩ ((raw_get_all_with_filters M recs (some [f2]) none "asc" none none).map
            fieldId).toFinset := by
  have key : ∀ a ∈ recs, ∀ b ∈ recs, fieldId a = fieldId b → a = b := by
    intro a ha b hb hab
    by_contra hne
    have hsymm : Symmetric (fun a b : ρ => fieldId a ≠ fieldId b) :=
      fun x y h e => h e.symm
    exact hinj.forall hsymm ha hb hne hab
  have h12 : raw_get_all_with_filters M recs (some [f1, f2]) none "asc" none none
      = recs.filter (fun r => f1 r && (f2 r && true)) := rfl
  have h1 : raw_get_all_with_filters M recs (some [f1]) none "asc" none none
      = recs.filter (fun r => f1 r && true) := rfl
  have h2 : raw_get_all_with_filters M recs (some [f2]) none "asc" none none
      = recs.filter (fun r => f2 r && true) := rfl
  rw [h12, h1, h2]
  ext v
  simp only [List.mem_toFinset, List.mem_map, Finset.mem_inter, List.mem_filter,
    Bool.and_true, Bool.and_eq_true]
  constructor
  · rintro ⟨r, ⟨hr, hf1, hf2⟩, rfl⟩
    exact ⟨⟨r, ⟨hr, hf1⟩, rfl⟩, ⟨r, ⟨hr, hf2⟩, rfl⟩⟩
  · rintro ⟨⟨r1, ⟨hr1, hf1⟩, rfl⟩, ⟨r2, ⟨hr2, hf2⟩, hv⟩⟩
    have hr : r2 = r1 := key r2 hr2 r1 hr1 hv
    subst hr
    exact ⟨r2, ⟨hr2, hf1, hf2⟩, rfl⟩

theorem filter_conjunction_witness :
    ([0, 1, 2] : List Nat).Pairwise
      (fun a b => (fun r => r) a ≠ (fun r => r) b) ∧
    ((raw_get_all_with_filters natMeta [0, 1, 2]
        (some [fun r => decide (1 ≤ r), fun r => decide (r ≤ 1)]) none "asc" none none).map
        (fun r => r)).toFinset
      = ((raw_get_all_with_filters natMeta [0, 1, 2]
          (some [fun r => decide (1 ≤ r)]) none "asc" none none).map (fun r => r)).toFinset
        ∩ ((raw_get_all_with_filters natMeta [0, 1, 2]
            (some [fun r => decide (r ≤ 1)]) none "asc" none none).map
            (fun r => r)).toFinset :=
  ⟨by decide,
   filter_conjunction natMeta [0, 1, 2] (fun r => decide (1 ≤ r)) (fun r => decide (r ≤ 1))
     (fun r => r) (by decide)⟩

theorem genInner_ret_probe (conv : String → Option ι) (draws : Nat → String)
    (check : Nat → ι → CheckRes ε) :
    ∀ fuel j v c, genInner conv draws check fuel j = (some (InnerOut.ret v), c) →
      ∃ jv, conv (draws jv) = some v ∧ check jv v = CheckRes.notFound := by
  intro fuel
  induction fuel with
  | zero =>
    intro j v c h
    simp [genInner] at h
  | succ f ih =>
    intro j v c h
    rw [genInner] at h
    cases hc : conv (draws j) with
    | none =>
      rw [hc] at h
      simp at h
    | some w =>
      rw [hc] at h
      cases hch : check j w with
      | err e =>
        simp [hch] at h
      | notFound =>
        simp only [hch, Prod.mk.injEq, Option.some.injEq, InnerOut.ret.injEq] at h
        obtain ⟨hv, -⟩ := h
        subst hv
        exact ⟨j, hc, hch⟩
      | found =>
        simp only [hch] at h
        rcases hg : genInner conv draws check f (j + 1) with ⟨r1, r2⟩
        rw [hg] at h
        simp only [Prod.mk.injEq] at h
        obtain ⟨hr1, -⟩ := h
        exact ih (j + 1) v r2 (by rw [hg, hr1])

theorem genLoop_val_probe (conv : String → Option ι) (draws : Nat → String)
    (check : Nat → ι → CheckRes ε) (innerFuel : Nat) :
    ∀ rem j v d a lg,
      genLoop conv draws check innerFuel rem j = (some (GenFinal.val v), d, a, lg) →
      ∃ jv, conv (draws jv) = some v ∧ check jv v = CheckRes.notFound := by
  intro rem
  induction rem with
  | zero =>
    intro j v d a lg h
    simp [genLoop] at h
  | succ m ih =>
    intro j v d a lg h
    rw [genLoop] at h
    rcases hg : genInner conv draws check innerFuel j with ⟨r1, c⟩
    rw [hg] at h
    match r1, h with
    | none, h => simp at h
    | some (InnerOut.ret w), h =>
      simp only [Prod.mk.injEq, Option.some.injEq, GenFinal.val.injEq] at h
      obtain ⟨hv, -⟩ := h
      subst hv
      exact genInner_ret_probe conv draws check innerFuel j w c hg
    | some (InnerOut.exn e), h =>
      by_cases hm : m = 0
      · subst hm
        simp at h
      · simp only [if_neg hm] at h
        rcases hrec : genLoop conv draws check innerFuel m (j + c) with ⟨s1, s2⟩
        rw [hrec] at h
        simp only [Prod.mk.injEq] at h
        obtain ⟨hs1, -⟩ := h
        exact ih (j + c) v s2.1 s2.2.1 s2.2.2 (by rw [hrec, hs1])

/-- C2: whenever generate_unique_field_id returns a value v over the
uniqueness probe of a fixed table content, no record of that table had its
identifying field equal to v at the moment of the check: the value is
returned only after the raw_get lookup on field_id == v found nothing. -/
theorem generate_unique_no_collision [DecidableEq ι] (recs : List ρ) (fieldId : ρ → ι)
    (conv : String → Option ι) (draws : Nat → String) (innerFuel n : Nat)
    (v : ι) (d a : Nat) (lg : List (GenExn ε))
    (h : generate_unique_field_id conv draws (checkOfStore recs fieldId) innerFuel n
          = (some (GenFinal.val v), d, a, lg)) :
    ∀ r ∈ recs, fieldId r ≠ v := by
  obtain ⟨jv, -, hch⟩ :=
    genLoop_val_probe conv draws (checkOfStore recs fieldId) innerFuel n 0 v d a lg h
  intro r hr
  unfold checkOfStore at hch
  rcases hfind : raw_get recs (fun x => decide (fieldId x = v)) with _ | w
  · have hnone : List.find? (fun x => decide (fieldId x = v)) recs = none := hfind
    have := List.find?_eq_none.mp hnone r hr
    simpa using this
  · rw [hfind] at hch
    simp at hch

theorem generate_unique_no_collision_witness :
    (generate_unique_field_id (fun s => some s)
        (fun j => if j = 0 then "A" else "B")
        (checkOfStore (ε := Unit) ["A"] (fun r => r)) 2 count_attemps
      = (some (GenFinal.val "B"), 2, 1, [])) ∧
    (∀ r ∈ (["A"] : List String), (fun r => r) r ≠ "B") :=
  ⟨by decide,
   generate_unique_no_collision (ε := Unit) ["A"] (fun r => r) (fun s => some s)
     (fun j => if j = 0 then "A" else "B") 2 count_attemps "B" 2 1 []
     (by decide)⟩

/-- C8: inside generate_unique_field_id, a candidate whose coercion to the
requested return type fails (conv yields none, as int() does on a drawn
string containing letters) ends the attempt after that single draw: the
ConversionError is reported to the failure sink and consumes exactly one of
the attempts — on the final attempt it is re-raised to the caller, on any
earlier attempt the loop moves to the next attempt with one more draw, one
more session and the reported error prepended to the log. -/
theorem gen_conversion_consumes_attempt (conv : String → Option ι)
    (draws : Nat → String) (check : Nat → ι → CheckRes ε) (innerFuel j : Nat)
    (hc : conv (draws j) = none) (hfuel : 0 < innerFuel) :
    genLoop conv draws check innerFuel 1 j
      = (some (GenFinal.raised GenExn.convErr), 1, 1, [GenExn.convErr]) ∧
    (∀ rem, 0 < rem →
      genLoop conv draws check innerFuel (rem + 1) j
        = ((genLoop conv draws check innerFuel rem (j + 1)).1,
           1 + (genLoop conv draws check innerFuel rem (j + 1)).2.1,
           1 + (genLoop conv draws check innerFuel rem (j + 1)).2.2.1,
           GenExn.convErr :: (genLoop conv draws check innerFuel rem (j + 1)).2.2.2)) := by
  obtain ⟨g, rfl⟩ := Nat.exists_eq_succ_of_ne_zero (Nat.pos_iff_ne_zero.mp hfuel)
  have hinner : genInner conv draws check (g + 1) j
      = (some (InnerOut.exn GenExn.convErr), 1) := by
    simp [genInner, hc]
  constructor
  · show genLoop conv draws check (g + 1) (0 + 1) j = _
    rw [genLoop, hinner]
    simp
  · intro rem hrem
    rw [genLoop, hinner]
    simp [Nat.pos_iff_ne_zero.mp hrem]

theorem gen_conversion_witness :
    pyIntConv ((fun _ => "ZZ") 3) = none ∧ 0 < 3 ∧
    ((genLoop pyIntConv (fun _ => "ZZ")
        (fun _ _ => (CheckRes.notFound : CheckRes Unit)) 3 1 3
      = (some (GenFinal.raised GenExn.convErr), 1, 1, [GenExn.convErr])) ∧
    (∀ rem, 0 < rem →
      genLoop pyIntConv (fun _ => "ZZ")
          (fun _ _ => (CheckRes.notFound : CheckRes Unit)) 3 (rem + 1) 3
        = ((genLoop pyIntConv (fun _ => "ZZ")
              (fun _ _ => (CheckRes.notFound : CheckRes Unit)) 3 rem (3 + 1)).1,
           1 + (genLoop pyIntConv (fun _ => "ZZ")
              (fun _ _ => (CheckRes.notFound : CheckRes Unit)) 3 rem (3 + 1)).2.1,
           1 + (genLoop pyIntConv (fun _ => "ZZ")
              (fun _ _ => (CheckRes.notFound : CheckRes Unit)) 3 rem (3 + 1)).2.2.1,
           GenExn.convErr :: (genLoop pyIntConv (fun _ => "ZZ")
              (fun _ _ => (CheckRes.notFound : CheckRes Unit)) 3 rem (3 + 1)).2.2.2))) :=
  ⟨by decide, by decide,
   gen_conversion_consumes_attempt pyIntConv (fun _ => "ZZ")
     (fun _ _ => (CheckRes.notFound : CheckRes Unit)) 3 3 (by decide) (by decide)⟩

/-- C3 counterexample: with count_attemps = 10 configured attempts, a store
in which every candidate collides keeps generate_unique_field_id inside its
first attempt's while True loop: after 11 candidate draws — more than
maxAttempts — the call has neither returned a value nor raised, and only a
single attempt (one session) has been used, refuting that every call ends
within maxAttempts candidate draws. -/
theorem gen_draw_budget_cex :
    generate_unique_field_id (fun s => some s) (fun _ => "A")
        (fun _ _ => (CheckRes.found : CheckRes Unit)) (count_attemps + 1) count_attemps
      = (none, count_attemps + 1, 1, []) ∧ count_attemps < count_attemps + 1 := by
  constructor
  · decide
  · decide

theorem genInner_collision_run (draws : Nat → String)
    (check : Nat → String → CheckRes ε) (f : Nat)
    (hfound : ∀ j, j < f → check j (draws j) = CheckRes.found)
    (hstop : check f (draws f) = CheckRes.notFound) :
    ∀ fuel j, j ≤ f → f - j < fuel →
      genInner (fun s => some s) draws check fuel j
        = (some (InnerOut.ret (draws f)), f - j + 1) := by
  intro fuel
  induction fuel with
  | zero =>
    intro j h1 h2
    omega
  | succ g ih =>
    intro j hj hf
    by_cases hjf : j = f
    · subst hjf
      simp [genInner, hstop]
    · have hjlt : j < f := by omega
      have hrec := ih (j + 1) (by omega) (by omega)
      rw [genInner]
      simp only [hfound j hjlt, hrec, Prod.mk.injEq]
      exact ⟨trivial, by omega⟩

/-- C3 amended: candidate draws are not bounded by the attempt budget.
Transient store failures and conversion failures consume attempts (each
attempt a fresh session), but a collision — the candidate already present —
repeats the while True body inside the same attempt and session without
consuming the budget: for every f, if the first f candidates collide and
the next probe finds no record, the call returns that candidate after f+1
draws while having used exactly one attempt, however large f is compared
with the configured number of attempts. -/
theorem gen_collision_single_attempt (draws : Nat → String)
    (check : Nat → String → CheckRes ε) (f n innerFuel : Nat)
    (hn : 0 < n) (hfuel : f < innerFuel)
    (hfound : ∀ j, j < f → check j (draws j) = CheckRes.found)
    (hstop : check f (draws f) = CheckRes.notFound) :
    generate_unique_field_id (fun s => some s) draws check innerFuel n
      = (some (GenFinal.val (draws f)), f + 1, 1, []) := by
  obtain ⟨m, rfl⟩ := Nat.exists_eq_succ_of_ne_zero (Nat.pos_iff_ne_zero.mp hn)
  have hinner := genInner_collision_run draws check f hfound hstop innerFuel 0
    (Nat.zero_le f) (by omega)
  rw [generate_unique_field_id, genLoop, hinner]
  simp

theorem gen_collision_single_attempt_witness :
    0 < count_attemps ∧ 15 < 16 ∧
    (∀ j, j < 15 →
      (fun j _ => if j < 15 then CheckRes.found else (CheckRes.notFound : CheckRes Unit)) j
          ((fun _ => "X") j) = CheckRes.found) ∧
    ((fun j _ => if j < 15 then CheckRes.found else (CheckRes.notFound : CheckRes Unit)) 15
        ((fun _ => "X") 15) = CheckRes.notFound) ∧
    generate_unique_field_id (fun s => some s) (fun _ => "X")
        (fun j _ => if j < 15 then CheckRes.found else (CheckRes.notFound : CheckRes Unit))
        16 count_attemps
      = (some (GenFinal.val ((fun _ => "X") 15)), 15 + 1, 1, []) :=
  ⟨by decide, by decide, by decide, by decide,
   gen_collision_single_attempt (fun _ => "X")
     (fun j _ => if j < 15 then CheckRes.found else (CheckRes.notFound : CheckRes Unit))
     15 count_attemps 16 (by decide) (by decide) (by decide) (by decide)⟩

end Repo
